import Mathlib

/-!
Shallow embedding of the blogging backend (models `Blog.js`, `Comment.js`,
controllers for blogs, comments and admin operations).

Documents are records; the Mongo collections are lists of records; a
controller operation is a function from the database (plus request data)
to an `Except` of an error and the updated database.  Mongoose `pre-save`
hooks are modelled as pure functions applied on every `save`, guarded by
the `isModified` flags the caller knows it touched.  `findByIdAndUpdate`
and `updateMany` bypass the hooks, exactly as in mongoose.
-/

namespace Blogging

abbrev UserId := Nat
abbrev BlogId := Nat
abbrev CommentId := Nat

/-- `status` enumeration of the blog schema. -/
inductive Status where
  | pending
  | published
  | rejected
deriving DecidableEq, Repr

/-- A document of the `Blog` collection (`models/Blog.js`).  The absent
`excerpt` of mongoose is modelled as `""`, which is also what the JS
truthiness test `!this.excerpt` treats as absent. -/
structure Blog where
  id : BlogId
  title : String
  slug : String
  content : String
  excerpt : String
  coverImage : String
  author : UserId
  category : String
  tags : List String
  status : Status
  publishedAt : Option Nat
  views : Nat
  likes : List UserId
  likesCount : Nat
  commentsCount : Int
  readTime : Nat
  isDeleted : Bool
  rejectionReason : String
deriving DecidableEq, Repr

/-- A document of the `Comment` collection (`models/Comment.js`). -/
structure Comment where
  id : CommentId
  blog : BlogId
  user : UserId
  content : String
  parentComment : Option CommentId
  replies : List CommentId
  likes : List UserId
  likesCount : Nat
  isEdited : Bool
  isDeleted : Bool
deriving DecidableEq, Repr

/-- Characters kept by the slug regex `[^a-z0-9]+` after `toLowerCase`. -/
def isSlugChar (c : Char) : Bool :=
  (('a' ≤ c) && (c ≤ 'z')) || (('0' ≤ c) && (c ≤ '9'))

/-- Replace every non-slug character by a dash (first half of the regex
replacement: each run of bad characters becomes a run of dashes). -/
def dashify (c : Char) : Char :=
  if isSlugChar c then c else '-'

/-- Collapse each run of dashes to a single dash (the `+` of the regex). -/
def squeezeDashes : List Char → List Char
  | [] => []
  | [c] => [c]
  | c :: d :: rest =>
    if c = '-' && d = '-' then squeezeDashes (d :: rest)
    else c :: squeezeDashes (d :: rest)

/-- Strip leading and trailing dashes (the `replace(/^-+|-+$/g, "")`). -/
def stripDashes (l : List Char) : List Char :=
  ((l.dropWhile (· = '-')).reverse.dropWhile (· = '-')).reverse

/-- The slug computed by the `pre('save')` hook from the title, with the
`Date.now()` disambiguating suffix. -/
def slugify (title : String) (now : Nat) : String :=
  String.mk (stripDashes (squeezeDashes (title.toLower.data.map dashify)))
    ++ "-" ++ toString now

/-- Number of maximal whitespace runs in a character list; a run is counted
at its last character. -/
def wsRuns : List Char → Nat
  | [] => 0
  | [c] => if c.isWhitespace then 1 else 0
  | c :: d :: rest =>
    (if c.isWhitespace && !d.isWhitespace then 1 else 0) + wsRuns (d :: rest)

/-- `content.split(/\s+/).length`: one more than the number of whitespace
runs (JS split keeps the empty fragments at the ends). -/
def jsWordCount (content : String) : Nat :=
  wsRuns content.data + 1

/-- The two `pre('save')` hooks of `blogSchema`, applied on every
`blog.save()`.  The `isModified` flags are supplied by the caller. -/
def applyBlogSaveHooks (b : Blog) (titleMod contentMod likesMod : Bool)
    (now : Nat) : Blog :=
  let b1 := if titleMod then { b with slug := slugify b.title now } else b
  let b2 := if contentMod
    then { b1 with readTime := (jsWordCount b1.content + 199) / 200 } else b1
  let b3 := if contentMod && (b2.excerpt == "")
    then { b2 with excerpt := b2.content.take 150 ++ "..." } else b2
  if likesMod then { b3 with likesCount := b3.likes.length } else b3

/-- The `pre('save')` hook of `commentSchema`. -/
def applyCommentSaveHooks (c : Comment) (likesMod : Bool) : Comment :=
  if likesMod then { c with likesCount := c.likes.length } else c

/-- The two collections the core operates on. -/
structure DB where
  blogs : List Blog
  comments : List Comment
deriving DecidableEq, Repr

/-- `Blog.findById`. -/
def findBlog (db : DB) (id : BlogId) : Option Blog :=
  db.blogs.find? (fun b => b.id == id)

/-- `Comment.findById`. -/
def findComment (db : DB) (id : CommentId) : Option Comment :=
  db.comments.find? (fun c => c.id == id)

/-- Write a blog document back by id (`blog.save()` of a loaded document,
or `Blog.findByIdAndUpdate`). -/
def modifyBlogById (db : DB) (id : BlogId) (f : Blog → Blog) : DB :=
  { db with blogs := db.blogs.map (fun b => if b.id == id then f b else b) }

/-- Write a comment document back by id. -/
def modifyCommentById (db : DB) (id : CommentId) (f : Comment → Comment) : DB :=
  { db with comments := db.comments.map (fun c => if c.id == id then f c else c) }

/-- `blog.save()`: run the schema hooks, then persist by id. -/
def saveBlog (db : DB) (b : Blog) (titleMod contentMod likesMod : Bool)
    (now : Nat) : Blog × DB :=
  let b := applyBlogSaveHooks b titleMod contentMod likesMod now
  (b, modifyBlogById db b.id (fun _ => b))

/-- `comment.save()`: run the schema hook, then persist by id. -/
def saveComment (db : DB) (c : Comment) (likesMod : Bool) : Comment × DB :=
  let c := applyCommentSaveHooks c likesMod
  (c, modifyCommentById db c.id (fun _ => c))

/-- The error responses the controllers can return (identified by their
message; all are terminal to the single operation). -/
inductive ApiError where
  | blogNotFound
  | blogNotPublished
  | parentCommentNotFound
  | commentNotFound
  | notAuthorized
  | alreadyPublished
deriving DecidableEq, Repr

/-- `Array.prototype.indexOf` (with the mongoose by-value equality on
ObjectId arrays): first index of `u`, or `none` for JS `-1`. -/
def jsIndexOf (u : UserId) : List UserId → Option Nat
  | [] => none
  | v :: rest => if v == u then some 0 else (jsIndexOf u rest).map (· + 1)

/-- Payload of the like-toggle responses. -/
structure LikeResult where
  likesCount : Nat
  isLiked : Bool
deriving DecidableEq, Repr

/-- `exports.createBlog` (blogController): request validation is the
transport layer's concern; every blog starts `pending`.  A brand-new
document has every path modified, so all hook guards fire. -/
def createBlog (db : DB) (userId : UserId) (title content : String)
    (excerpt coverImage : Option String) (category : String)
    (tags : Option (List String)) (newId : BlogId) (now : Nat) : Blog × DB :=
  let blog : Blog :=
    { id := newId
      title := title
      slug := ""
      content := content
      excerpt := excerpt.getD ""
      coverImage := coverImage.getD ""
      author := userId
      category := category
      tags := tags.getD []
      status := .pending
      publishedAt := none
      views := 0
      likes := []
      likesCount := 0
      commentsCount := 0
      readTime := 0
      isDeleted := false
      rejectionReason := "" }
  let blog := applyBlogSaveHooks blog true true true now
  (blog, { db with blogs := db.blogs ++ [blog] })

/-- `exports.getBlogBySlug`: looks the slug up among non-deleted blogs only
(no status filter), and increments `views` unless the viewer is the
author. -/
def getBlogBySlug (db : DB) (slug : String) (viewer : Option UserId) :
    Except ApiError (Blog × DB) :=
  match db.blogs.find? (fun b => b.slug == slug && !b.isDeleted) with
  | none => .error .blogNotFound
  | some blog =>
    if viewer ≠ some blog.author then
      let (b, db) := saveBlog db { blog with views := blog.views + 1 }
        false false false 0
      .ok (b, db)
    else
      .ok (blog, db)

/-- The optional fields of an `updateBlog` request body (`none` models a
field absent from the JSON). -/
structure BlogUpdate where
  title : Option String := none
  content : Option String := none
  excerpt : Option String := none
  coverImage : Option String := none
  category : Option String := none
  tags : Option (List String) := none
deriving DecidableEq, Repr

/-- JS truthiness of an optional string request field. -/
def truthy : Option String → Bool
  | none => false
  | some s => !(s == "")

/-- The field-assignment block of `exports.updateBlog`: `title`, `content`
and `category` are assigned when truthy, `excerpt` and `coverImage` when
not `undefined`, `tags` when present. -/
def applyBlogUpdateFields (u : BlogUpdate) (b : Blog) : Blog :=
  let b := if truthy u.title then { b with title := u.title.getD "" } else b
  let b := if truthy u.content then { b with content := u.content.getD "" } else b
  let b := match u.excerpt with
    | some e => { b with excerpt := e }
    | none => b
  let b := match u.coverImage with
    | some ci => { b with coverImage := ci }
    | none => b
  let b := if truthy u.category then { b with category := u.category.getD "" } else b
  match u.tags with
  | some t => { b with tags := t }
  | none => b

/-- `exports.updateBlog` (author only): assigns the supplied fields, demotes
a published blog back to `pending` when title or content was supplied,
then saves.  `isModified` is true only when an assignment changed the
stored value. -/
def updateBlog (db : DB) (userId : UserId) (id : BlogId) (u : BlogUpdate)
    (now : Nat) : Except ApiError (Blog × DB) :=
  match findBlog db id with
  | none => .error .blogNotFound
  | some blog =>
    if blog.author ≠ userId then .error .notAuthorized
    else
      let b := applyBlogUpdateFields u blog
      let b := if b.status = .published && (truthy u.title || truthy u.content)
        then { b with status := .pending, publishedAt := none } else b
      let titleMod := truthy u.title && !(u.title.getD "" == blog.title)
      let contentMod := truthy u.content && !(u.content.getD "" == blog.content)
      let (b, db) := saveBlog db b titleMod contentMod false now
      .ok (b, db)

/-- `exports.deleteBlog` (author only): soft delete of the blog alone. -/
def deleteBlog (db : DB) (userId : UserId) (id : BlogId) :
    Except ApiError DB :=
  match findBlog db id with
  | none => .error .blogNotFound
  | some blog =>
    if blog.author ≠ userId then .error .notAuthorized
    else .ok (saveBlog db { blog with isDeleted := true } false false false 0).2

/-- `exports.toggleLike` (blogController): no `isDeleted` check, rejects
only non-published blogs; push or splice on `likes`, then save (the hook
recomputes `likesCount`). -/
def toggleLike (db : DB) (userId : UserId) (id : BlogId) (now : Nat) :
    Except ApiError (LikeResult × DB) :=
  match findBlog db id with
  | none => .error .blogNotFound
  | some blog =>
    if blog.status ≠ .published then .error .blogNotPublished
    else
      match jsIndexOf userId blog.likes with
      | none =>
        let (b, db) := saveBlog db { blog with likes := blog.likes ++ [userId] }
          false false true now
        .ok ({ likesCount := b.likesCount, isLiked := true }, db)
      | some i =>
        let (b, db) := saveBlog db { blog with likes := blog.likes.eraseIdx i }
          false false true now
        .ok ({ likesCount := b.likesCount, isLiked := false }, db)

/-- The success path of `exports.createComment`: create the comment, push
its id onto the parent's `replies` (a hook-bypassing update), then add one
to the blog's `commentsCount` and save the blog document. -/
def insertComment (db : DB) (blog : Blog) (userId : UserId) (blogId : BlogId)
    (content : String) (parentComment : Option CommentId) (newId : CommentId) :
    Comment × DB :=
  let comment : Comment :=
    { id := newId
      blog := blogId
      user := userId
      content := content
      parentComment := parentComment
      replies := []
      likes := []
      likesCount := 0
      isEdited := false
      isDeleted := false }
  let comment := applyCommentSaveHooks comment true
  let db := { db with comments := db.comments ++ [comment] }
  let db := match parentComment with
    | some pid =>
      modifyCommentById db pid (fun p => { p with replies := p.replies ++ [newId] })
    | none => db
  let (_, db) := saveBlog db { blog with commentsCount := blog.commentsCount + 1 }
    false false false 0
  (comment, db)

/-- `exports.createComment`: `findById` (no `isDeleted` filter), then the
status gate, then the parent-existence gate for replies. -/
def createComment (db : DB) (userId : UserId) (blogId : BlogId)
    (content : String) (parentComment : Option CommentId) (newId : CommentId) :
    Except ApiError (Comment × DB) :=
  match findBlog db blogId with
  | none => .error .blogNotFound
  | some blog =>
    if blog.status ≠ .published then .error .blogNotPublished
    else
      match parentComment with
      | some pid =>
        match findComment db pid with
        | none => .error .parentCommentNotFound
        | some _ => .ok (insertComment db blog userId blogId content parentComment newId)
      | none => .ok (insertComment db blog userId blogId content parentComment newId)

/-- One entry of the `getComments` response: a top-level comment with its
populated, non-deleted replies. -/
structure CommentThread where
  comment : Comment
  replies : List Comment
deriving DecidableEq, Repr

/-- `exports.getComments`: top-level (`parentComment: null`), non-deleted
comments of the blog, each with its `replies` populated and filtered on
`isDeleted: false` (pagination and sort are the transport layer's). -/
def getComments (db : DB) (blogId : BlogId) :
    Except ApiError (List CommentThread) :=
  match findBlog db blogId with
  | none => .error .blogNotFound
  | some _ =>
    let tops := db.comments.filter
      (fun c => c.blog == blogId && c.parentComment.isNone && !c.isDeleted)
    .ok (tops.map (fun c =>
      { comment := c
        replies := (c.replies.filterMap (fun rid => findComment db rid)).filter
          (fun r => !r.isDeleted) }))

/-- `exports.deleteComment` (author only): tombstone the comment, then a
hook-bypassing `$inc: { commentsCount: -1 }` on the blog; the already
deleted state is never checked. -/
def deleteComment (db : DB) (userId : UserId) (commentId : CommentId) :
    Except ApiError DB :=
  match findComment db commentId with
  | none => .error .commentNotFound
  | some c =>
    if c.user ≠ userId then .error .notAuthorized
    else
      let (_, db) := saveComment db
        { c with isDeleted := true, content := "[deleted]" } false
      .ok (modifyBlogById db c.blog
        (fun b => { b with commentsCount := b.commentsCount - 1 }))

/-- `exports.toggleCommentLike`: like `toggleLike` but with no status
gate at all. -/
def toggleCommentLike (db : DB) (userId : UserId) (commentId : CommentId) :
    Except ApiError (LikeResult × DB) :=
  match findComment db commentId with
  | none => .error .commentNotFound
  | some c =>
    match jsIndexOf userId c.likes with
    | none =>
      let (c, db) := saveComment db { c with likes := c.likes ++ [userId] } true
      .ok ({ likesCount := c.likesCount, isLiked := true }, db)
    | some i =>
      let (c, db) := saveComment db { c with likes := c.likes.eraseIdx i } true
      .ok ({ likesCount := c.likesCount, isLiked := false }, db)

/-- `exports.approveBlog` (adminController): guard on already published,
otherwise publish, stamp `publishedAt`, clear `rejectionReason`. -/
def approveBlog (db : DB) (id : BlogId) (now : Nat) :
    Except ApiError (Blog × DB) :=
  match findBlog db id with
  | none => .error .blogNotFound
  | some blog =>
    if blog.status = .published then .error .alreadyPublished
    else
      let b := { blog with
        status := .published
        publishedAt := some now
        rejectionReason := "" }
      let (b, db) := saveBlog db b false false false now
      .ok (b, db)

/-- `exports.deleteBlogAdmin`: soft delete the blog, then an `updateMany`
marking every comment of that blog deleted (hook-bypassing). -/
def deleteBlogAdmin (db : DB) (id : BlogId) : Except ApiError DB :=
  match findBlog db id with
  | none => .error .blogNotFound
  | some blog =>
    let (_, db) := saveBlog db { blog with isDeleted := true } false false false 0
    .ok { db with comments := (db.comments.map
      (fun c => if c.blog == id then { c with isDeleted := true } else c)) }

/-- `exports.deleteCommentAdmin`: like `deleteComment` without the author
check and with the admin placeholder text. -/
def deleteCommentAdmin (db : DB) (commentId : CommentId) :
    Except ApiError DB :=
  match findComment db commentId with
  | none => .error .commentNotFound
  | some c =>
    let (_, db) := saveComment db
      { c with isDeleted := true, content := "[deleted by admin]" } false
    .ok (modifyBlogById db c.blog
      (fun b => { b with commentsCount := b.commentsCount - 1 }))

/-! ### The like-toggle sequences of claim C1 -/

/-- One call arriving at either like-toggle endpoint. -/
inductive LikeOp where
  | blog (u : UserId) (id : BlogId)
  | comment (u : UserId) (id : CommentId)
deriving DecidableEq, Repr

/-- The database after one like-toggle request (a failed request leaves the
database untouched, since the controllers return before writing). -/
def likeStep (db : DB) (op : LikeOp) : DB :=
  match op with
  | .blog u id =>
    match toggleLike db u id 0 with
    | .ok r => r.2
    | .error _ => db
  | .comment u id =>
    match toggleCommentLike db u id with
    | .ok r => r.2
    | .error _ => db

/-- Replay a whole sequence of like toggles. -/
def runLikeOps (db : DB) (ops : List LikeOp) : DB :=
  ops.foldl likeStep db

/-- The cardinality invariant on one blog: the cached count is the length
of the like list, and the list holds no duplicate principals. -/
def blogLikesWF (b : Blog) : Prop :=
  b.likesCount = b.likes.length ∧ b.likes.Nodup

/-- The cardinality invariant on one comment. -/
def commentLikesWF (c : Comment) : Prop :=
  c.likesCount = c.likes.length ∧ c.likes.Nodup

/-- The cardinality invariant over the whole database. -/
def likesWF (db : DB) : Prop :=
  (∀ b ∈ db.blogs, blogLikesWF b) ∧ (∀ c ∈ db.comments, commentLikesWF c)

instance (b : Blog) : Decidable (blogLikesWF b) := by
  unfold blogLikesWF; infer_instance

instance (c : Comment) : Decidable (commentLikesWF c) := by
  unfold commentLikesWF; infer_instance

instance (db : DB) : Decidable (likesWF db) := by
  unfold likesWF; infer_instance

/-! ### Helper lemmas -/

theorem not_mem_of_jsIndexOf_eq_none {u : UserId} {l : List UserId}
    (h : jsIndexOf u l = none) : u ∉ l := by
  induction l with
  | nil => simp
  | cons v rest ih =>
    unfold jsIndexOf at h
    by_cases hvu : v = u
    · simp [hvu] at h
    · have hb : (v == u) = false := by simp [hvu]
      rw [hb] at h
      simp only [Bool.false_eq_true, if_false, Option.map_eq_none'] at h
      simp only [List.mem_cons, not_or]
      exact ⟨fun hx => hvu hx.symm, ih h⟩

theorem nodup_push {u : UserId} {l : List UserId}
    (hnd : l.Nodup) (hmem : u ∉ l) : (l ++ [u]).Nodup := by
  rw [List.nodup_append]
  exact ⟨hnd, List.nodup_singleton u,
    fun a ha hb => by simp at hb; subst hb; exact hmem ha⟩

theorem nodup_splice {l : List UserId} (i : Nat) (hnd : l.Nodup) :
    (l.eraseIdx i).Nodup :=
  List.Nodup.sublist (List.eraseIdx_sublist l i) hnd

/-- With only `likes` modified, the blog hooks reduce to the `likesCount`
recomputation. -/
theorem applyBlogSaveHooks_likesOnly (b : Blog) (now : Nat) :
    applyBlogSaveHooks b false false true now
      = { b with likesCount := b.likes.length } := rfl

/-- With no relevant path modified, the blog hooks change nothing. -/
theorem applyBlogSaveHooks_noMod (b : Blog) (now : Nat) :
    applyBlogSaveHooks b false false false now = b := rfl

theorem applyCommentSaveHooks_likesOnly (c : Comment) :
    applyCommentSaveHooks c true = { c with likesCount := c.likes.length } := rfl

theorem applyCommentSaveHooks_noMod (c : Comment) :
    applyCommentSaveHooks c false = c := rfl

theorem blogLikesWF_push (blog : Blog) (u : UserId) (now : Nat)
    (hnd : blog.likes.Nodup) (hmem : u ∉ blog.likes) :
    blogLikesWF
      (applyBlogSaveHooks { blog with likes := blog.likes ++ [u] }
        false false true now) := by
  rw [applyBlogSaveHooks_likesOnly]
  exact ⟨rfl, nodup_push hnd hmem⟩

theorem blogLikesWF_splice (blog : Blog) (i : Nat) (now : Nat)
    (hnd : blog.likes.Nodup) :
    blogLikesWF
      (applyBlogSaveHooks { blog with likes := blog.likes.eraseIdx i }
        false false true now) := by
  rw [applyBlogSaveHooks_likesOnly]
  exact ⟨rfl, nodup_splice i hnd⟩

theorem commentLikesWF_push (c : Comment) (u : UserId)
    (hnd : c.likes.Nodup) (hmem : u ∉ c.likes) :
    commentLikesWF (applyCommentSaveHooks { c with likes := c.likes ++ [u] } true) := by
  rw [applyCommentSaveHooks_likesOnly]
  exact ⟨rfl, nodup_push hnd hmem⟩

theorem commentLikesWF_splice (c : Comment) (i : Nat) (hnd : c.likes.Nodup) :
    commentLikesWF (applyCommentSaveHooks { c with likes := c.likes.eraseIdx i } true) := by
  rw [applyCommentSaveHooks_likesOnly]
  exact ⟨rfl, nodup_splice i hnd⟩

theorem likesWF_modifyBlog_const (db : DB) (id : BlogId) (nb : Blog)
    (hb : ∀ b ∈ db.blogs, blogLikesWF b) (hc : ∀ c ∈ db.comments, commentLikesWF c)
    (hnb : blogLikesWF nb) :
    likesWF (modifyBlogById db id (fun _ => nb)) := by
  refine ⟨?_, hc⟩
  intro b' hb'
  unfold modifyBlogById at hb'
  simp only [List.mem_map] at hb'
  obtain ⟨a, ha, rfl⟩ := hb'
  split
  · exact hnb
  · exact hb a ha

theorem likesWF_modifyComment_const (db : DB) (id : CommentId) (nc : Comment)
    (hb : ∀ b ∈ db.blogs, blogLikesWF b) (hc : ∀ c ∈ db.comments, commentLikesWF c)
    (hnc : commentLikesWF nc) :
    likesWF (modifyCommentById db id (fun _ => nc)) := by
  refine ⟨hb, ?_⟩
  intro c' hc'
  unfold modifyCommentById at hc'
  simp only [List.mem_map] at hc'
  obtain ⟨a, ha, rfl⟩ := hc'
  split
  · exact hnc
  · exact hc a ha

theorem likesWF_likeStep (db : DB) (op : LikeOp) (h : likesWF db) :
    likesWF (likeStep db op) := by
  obtain ⟨hb, hc⟩ := h
  cases op with
  | blog u id =>
    cases hfind : findBlog db id with
    | none => simp only [likeStep, toggleLike, hfind]; exact ⟨hb, hc⟩
    | some blog =>
      have hwf := hb blog (List.mem_of_find?_eq_some hfind)
      by_cases hst : blog.status = .published
      · cases hidx : jsIndexOf u blog.likes with
        | none =>
          simp only [likeStep, toggleLike, hfind, hst, hidx, saveBlog, ne_eq,
            not_true_eq_false, if_false]
          exact likesWF_modifyBlog_const _ _ _ hb hc
            (blogLikesWF_push blog u 0 hwf.2 (not_mem_of_jsIndexOf_eq_none hidx))
        | some i =>
          simp only [likeStep, toggleLike, hfind, hst, hidx, saveBlog, ne_eq,
            not_true_eq_false, if_false]
          exact likesWF_modifyBlog_const _ _ _ hb hc
            (blogLikesWF_splice blog i 0 hwf.2)
      · simp only [likeStep, toggleLike, hfind, if_pos (show blog.status ≠ .published from hst)]
        exact ⟨hb, hc⟩
  | comment u id =>
    cases hfind : findComment db id with
    | none => simp only [likeStep, toggleCommentLike, hfind]; exact ⟨hb, hc⟩
    | some c =>
      have hwf := hc c (List.mem_of_find?_eq_some hfind)
      cases hidx : jsIndexOf u c.likes with
      | none =>
        simp only [likeStep, toggleCommentLike, hfind, hidx, saveComment]
        exact likesWF_modifyComment_const _ _ _ hb hc
          (commentLikesWF_push c u hwf.2 (not_mem_of_jsIndexOf_eq_none hidx))
      | some i =>
        simp only [likeStep, toggleCommentLike, hfind, hidx, saveComment]
        exact likesWF_modifyComment_const _ _ _ hb hc
          (commentLikesWF_splice c i hwf.2)

theorem likesWF_runLikeOps (db : DB) (ops : List LikeOp) (h : likesWF db) :
    likesWF (runLikeOps db ops) := by
  induction ops generalizing db with
  | nil => exact h
  | cons op rest ih => exact ih (likeStep db op) (likesWF_likeStep db op h)

/-- C1: for every Post and every Comment, after any sequence of
`toggleLike` operations (each by some principal), the cached `likesCount`
equals the cardinality of the likes set: the count is recomputed from the
set by the save hook on every mutation of `likes`, never drifting from it. -/
theorem c1_likesCount_is_card (db : DB) (h : likesWF db) (ops : List LikeOp) :
    (∀ b ∈ (runLikeOps db ops).blogs, b.likesCount = b.likes.toFinset.card) ∧
    (∀ c ∈ (runLikeOps db ops).comments, c.likesCount = c.likes.toFinset.card) := by
  obtain ⟨hb, hc⟩ := likesWF_runLikeOps db ops h
  constructor
  · intro b hmem
    obtain ⟨hcount, hnd⟩ := hb b hmem
    rw [hcount, List.toFinset_card_of_nodup hnd]
  · intro c hmem
    obtain ⟨hcount, hnd⟩ := hc c hmem
    rw [hcount, List.toFinset_card_of_nodup hnd]

/-- A published blog used by the concrete witnesses. -/
def wBlog : Blog :=
  { id := 1
    title := "A first post"
    slug := "a-first-post-42"
    content := "Some content of the first post, long enough to be a post."
    excerpt := "Some excerpt"
    coverImage := ""
    author := 5
    category := "Other"
    tags := []
    status := .published
    publishedAt := some 42
    views := 0
    likes := []
    likesCount := 0
    commentsCount := 0
    readTime := 1
    isDeleted := false
    rejectionReason := "" }

/-- A comment on `wBlog` used by the concrete witnesses. -/
def wComment : Comment :=
  { id := 11
    blog := 1
    user := 6
    content := "nice post"
    parentComment := none
    replies := []
    likes := []
    likesCount := 0
    isEdited := false
    isDeleted := false }

def wLikeDB : DB := ⟨[wBlog], [wComment]⟩

def wLikeOps : List LikeOp :=
  [.blog 7 1, .blog 8 1, .blog 7 1, .comment 9 11, .comment 10 11, .comment 9 11]

theorem c1_likesCount_is_card_witness :
    (∀ b ∈ (runLikeOps wLikeDB wLikeOps).blogs, b.likesCount = b.likes.toFinset.card) ∧
    (∀ c ∈ (runLikeOps wLikeDB wLikeOps).comments, c.likesCount = c.likes.toFinset.card) :=
  c1_likesCount_is_card wLikeDB (by decide) wLikeOps

/-- A soft-deleted blog that is still `published` (what `deleteBlog` leaves
behind when the author deletes a published post). -/
def wDelDB : DB := ⟨[{ wBlog with isDeleted := true }], []⟩

/-- A soft-deleted blog whose status is `pending`. -/
def wDelPendDB : DB := ⟨[{ wBlog with isDeleted := true, status := .pending }], []⟩

/-- C2 counterexample: on a soft-deleted post whose status is `published`,
`createComment` does not fail with `PostNotFound` — it succeeds — and
`toggleLike` also succeeds and mutates the likes set (`findById` never
filters on `isDeleted`). -/
theorem c2_counterexample :
    (createComment wDelDB 7 1 "hello" none 21).isOk = true ∧
    (toggleLike wDelDB 7 1 0).isOk = true ∧
    ((toggleLike wDelDB 7 1 0).toOption.bind (fun r => findBlog r.2 1)).map Blog.likes
      = some [7] := by decide

/-- C2 (amended): the soft-delete flag plays no role in `createComment` and
`toggleLike`; on an existing soft-deleted post both operations behave
exactly as on a live post of the same status — they fail with
`PostNotPublished` when the status is not `published`, and succeed
otherwise. -/
theorem c2_deleted_post_engagement (db : DB) (id : BlogId) (b : Blog) (u : UserId)
    (content : String) (cid : CommentId) (now : Nat)
    (hfind : findBlog db id = some b) (hdel : b.isDeleted = true) :
    (b.status ≠ .published →
       createComment db u id content none cid = .error .blogNotPublished ∧
       toggleLike db u id now = .error .blogNotPublished) ∧
    (b.status = .published →
       (createComment db u id content none cid).isOk = true ∧
       (toggleLike db u id now).isOk = true) := by
  constructor
  · intro hst
    constructor
    · simp only [createComment, hfind, if_pos hst]
    · simp only [toggleLike, hfind, if_pos hst]
  · intro hst
    have hst' : ¬ b.status ≠ .published := by simp [hst]
    constructor
    · simp only [createComment, hfind, if_neg hst', insertComment]
      rfl
    · cases hidx : jsIndexOf u b.likes with
      | none =>
        simp only [toggleLike, hfind, if_neg hst', hidx, saveBlog]
        rfl
      | some i =>
        simp only [toggleLike, hfind, if_neg hst', hidx, saveBlog]
        rfl

theorem c2_deleted_post_engagement_witness :
    (createComment wDelPendDB 7 1 "hello" none 21 = .error .blogNotPublished ∧
     toggleLike wDelPendDB 7 1 0 = .error .blogNotPublished) ∧
    ((createComment wDelDB 7 1 "hello" none 21).isOk = true ∧
     (toggleLike wDelDB 7 1 0).isOk = true) :=
  ⟨(c2_deleted_post_engagement wDelPendDB 1
      { wBlog with isDeleted := true, status := .pending } 7 "hello" 21 0
      rfl rfl).1 (by decide),
   (c2_deleted_post_engagement wDelDB 1
      { wBlog with isDeleted := true } 7 "hello" 21 0 rfl rfl).2 rfl⟩

/-- A pending blog (never approved), as created by `createBlog`. -/
def wPendDB : DB :=
  ⟨[{ wBlog with status := .pending, publishedAt := none }], []⟩

/-- C3 counterexample: `getBlogBySlug` returns a pending post to an
unauthenticated viewer who is neither the author nor a moderator — the
query filters only on `isDeleted`, never on status or viewer. -/
theorem c3_counterexample :
    ((getBlogBySlug wPendDB "a-first-post-42" none).toOption.map
      (fun r => r.1.id) = some 1) ∧
    ((findBlog wPendDB 1).map Blog.status = some .pending) := by decide

/-- C3 (amended): `getPostBySlug` returns the first non-deleted post with
the requested slug to every viewer, whatever the post's status; pending
and rejected posts are hidden only from the listing endpoints, not from
the slug lookup. -/
theorem c3_slug_ignores_status (db : DB) (s : String) (viewer : Option UserId)
    (b : Blog)
    (hfind : db.blogs.find? (fun x => x.slug == s && !x.isDeleted) = some b) :
    (getBlogBySlug db s viewer).toOption.map (fun r => r.1.id) = some b.id := by
  by_cases hv : viewer ≠ some b.author
  · simp only [getBlogBySlug, hfind, if_pos hv, saveBlog, applyBlogSaveHooks_noMod,
      Except.toOption, Option.map_some']
  · simp only [getBlogBySlug, hfind, if_neg hv, Except.toOption, Option.map_some']

theorem c3_slug_ignores_status_witness :
    (getBlogBySlug wPendDB "a-first-post-42" none).toOption.map
      (fun r => r.1.id) = some 1 :=
  c3_slug_ignores_status wPendDB "a-first-post-42" none
    { wBlog with status := .pending, publishedAt := none } (by decide)

/-! ### More helper lemmas: `find?` against the by-id updates -/

theorem findBlog_id_eq {db : DB} {id : BlogId} {b : Blog}
    (h : findBlog db id = some b) : b.id = id := by
  have hp := List.find?_some h
  simpa using hp

theorem findComment_id_eq {db : DB} {id : CommentId} {c : Comment}
    (h : findComment db id = some c) : c.id = id := by
  have hp := List.find?_some h
  simpa using hp

theorem find?_map_modify {α : Type} (l : List α) (p : α → Bool) (f : α → α)
    (hf : ∀ a, p a = true → p (f a) = true) :
    (l.map (fun a => if p a then f a else a)).find? p = (l.find? p).map f := by
  induction l with
  | nil => rfl
  | cons a rest ih =>
    by_cases h : p a = true
    · rw [List.map_cons, if_pos h, List.find?_cons_of_pos _ (hf a h),
        List.find?_cons_of_pos _ h, Option.map_some']
    · rw [List.map_cons, if_neg h, List.find?_cons_of_neg _ h,
        List.find?_cons_of_neg _ h, ih]

theorem find?_map_modify_ne {α : Type} (l : List α) (p q : α → Bool) (f : α → α)
    (hpq : ∀ a, q a = true → p a = false)
    (hpf : ∀ a, q a = true → p (f a) = false) :
    (l.map (fun a => if q a then f a else a)).find? p = l.find? p := by
  induction l with
  | nil => rfl
  | cons a rest ih =>
    by_cases h : q a = true
    · rw [List.map_cons, if_pos h, List.find?_cons_of_neg _ (by simp [hpf a h]),
        List.find?_cons_of_neg _ (by simp [hpq a h]), ih]
    · rw [List.map_cons, if_neg h]
      by_cases hpa : p a = true
      · rw [List.find?_cons_of_pos _ hpa, List.find?_cons_of_pos _ hpa]
      · rw [List.find?_cons_of_neg _ hpa, List.find?_cons_of_neg _ hpa, ih]

theorem findBlog_modifyBlogById (db : DB) (id : BlogId) (f : Blog → Blog)
    (hf : ∀ b, b.id = id → (f b).id = id) :
    findBlog (modifyBlogById db id f) id = (findBlog db id).map f := by
  refine find?_map_modify db.blogs (fun b => b.id == id) f (fun a ha => ?_)
  simp only [beq_iff_eq] at ha ⊢
  exact hf a ha

theorem findComment_modifyCommentById (db : DB) (id : CommentId)
    (f : Comment → Comment) (hf : ∀ c, c.id = id → (f c).id = id) :
    findComment (modifyCommentById db id f) id = (findComment db id).map f := by
  refine find?_map_modify db.comments (fun c => c.id == id) f (fun a ha => ?_)
  simp only [beq_iff_eq] at ha ⊢
  exact hf a ha

theorem findComment_modifyCommentById_ne (db : DB) (id id' : CommentId)
    (f : Comment → Comment) (hne : id ≠ id')
    (hf : ∀ c, c.id = id' → (f c).id = id') :
    findComment (modifyCommentById db id' f) id = findComment db id := by
  have hne' : ¬ id' = id := fun hx => hne hx.symm
  refine find?_map_modify_ne db.comments (fun c => c.id == id)
    (fun c => c.id == id') f (fun a ha => ?_) (fun a ha => ?_)
  · have ha' : a.id = id' := by simpa using ha
    simp [ha', hne']
  · have ha' : a.id = id' := by simpa using ha
    simp [hf a ha', hne']

theorem findBlog_modifyCommentById (db : DB) (cid : CommentId)
    (f : Comment → Comment) (id : BlogId) :
    findBlog (modifyCommentById db cid f) id = findBlog db id := rfl

theorem findComment_modifyBlogById (db : DB) (bid : BlogId)
    (f : Blog → Blog) (id : CommentId) :
    findComment (modifyBlogById db bid f) id = findComment db id := rfl

/-! ### C4: approve -/

/-- C4: `approvePost` on a `pending` or `rejected` post publishes it, sets
`publishedAt` to the current time and clears `rejectionReason`; on an
already-published post it fails with `AlreadyPublished` (and, returning
before any write, leaves the post unchanged). -/
theorem c4_approve (db : DB) (id : BlogId) (b : Blog) (now : Nat)
    (hfind : findBlog db id = some b) :
    (b.status = .pending ∨ b.status = .rejected →
       approveBlog db id now = .ok
         ({ b with
              status := .published
              publishedAt := some now
              rejectionReason := "" },
          modifyBlogById db id (fun _ =>
            { b with
                status := .published
                publishedAt := some now
                rejectionReason := "" }))) ∧
    (b.status = .published → approveBlog db id now = .error .alreadyPublished) := by
  constructor
  · intro hst
    have hne : ¬ b.status = .published := by rcases hst with h | h <;> simp [h]
    have hid : b.id = id := findBlog_id_eq hfind
    subst hid
    simp only [approveBlog, hfind, if_neg hne, saveBlog, applyBlogSaveHooks_noMod]
  · intro hst
    simp only [approveBlog, hfind, if_pos hst]

theorem c4_approve_witness :
    ((approveBlog wPendDB 1 99).toOption.map
       (fun r => (r.1.status, r.1.publishedAt, r.1.rejectionReason))
       = some (.published, some 99, "")) ∧
    approveBlog wLikeDB 1 99 = .error .alreadyPublished := by
  constructor
  · rw [(c4_approve wPendDB 1 { wBlog with status := .pending, publishedAt := none }
      99 rfl).1 (Or.inl rfl)]
    rfl
  · exact (c4_approve wLikeDB 1 wBlog 99 rfl).2 rfl

/-! ### C5: edits and the re-pending demotion -/

/-- The field-assignment block of `updateBlog` never touches the lifecycle
or engagement fields. -/
theorem applyBlogUpdateFields_frame (u : BlogUpdate) (b : Blog) :
    (applyBlogUpdateFields u b).status = b.status ∧
    (applyBlogUpdateFields u b).publishedAt = b.publishedAt := by
  unfold applyBlogUpdateFields
  repeat' split
  all_goals exact ⟨rfl, rfl⟩

/-- The blog save hooks never touch the lifecycle fields. -/
theorem applyBlogSaveHooks_lifecycle_frame (b : Blog) (t c l : Bool) (now : Nat) :
    (applyBlogSaveHooks b t c l now).status = b.status ∧
    (applyBlogSaveHooks b t c l now).publishedAt = b.publishedAt := by
  unfold applyBlogSaveHooks
  dsimp only
  repeat' split
  all_goals exact ⟨rfl, rfl⟩

/-- C5: an author edit of a published post that supplies a (truthy) title
or content demotes the post to `pending` and nulls `publishedAt`; an edit
supplying neither (only tags, category, excerpt or cover image) leaves the
post published with `publishedAt` untouched. -/
theorem c5_edit_demotion (db : DB) (userId : UserId) (id : BlogId) (b : Blog)
    (u : BlogUpdate) (now : Nat)
    (hfind : findBlog db id = some b) (hauth : b.author = userId)
    (hpub : b.status = .published) :
    (truthy u.title = true ∨ truthy u.content = true →
       ∃ b' db', updateBlog db userId id u now = .ok (b', db') ∧
         b'.status = .pending ∧ b'.publishedAt = none) ∧
    (truthy u.title = false → truthy u.content = false →
       ∃ b' db', updateBlog db userId id u now = .ok (b', db') ∧
         b'.status = .published ∧ b'.publishedAt = b.publishedAt) := by
  have hauth' : ¬ b.author ≠ userId := by simp [hauth]
  obtain ⟨hfs, hfp⟩ := applyBlogUpdateFields_frame u b
  constructor
  · intro ht
    have hcond : (decide ((applyBlogUpdateFields u b).status = Status.published)
        && (truthy u.title || truthy u.content)) = true := by
      rcases ht with h | h <;> simp [hfs, hpub, h]
    simp only [updateBlog, hfind, if_neg hauth', saveBlog]
    refine ⟨_, _, rfl, ?_, ?_⟩
    · rw [(applyBlogSaveHooks_lifecycle_frame _ _ _ _ _).1, if_pos hcond]
    · rw [(applyBlogSaveHooks_lifecycle_frame _ _ _ _ _).2, if_pos hcond]
  · intro h1 h2
    have hcond : ¬ ((decide ((applyBlogUpdateFields u b).status = Status.published)
        && (truthy u.title || truthy u.content)) = true) := by
      simp [h1, h2]
    simp only [updateBlog, hfind, if_neg hauth', saveBlog]
    refine ⟨_, _, rfl, ?_, ?_⟩
    · rw [(applyBlogSaveHooks_lifecycle_frame _ _ _ _ _).1, if_neg hcond, hfs, hpub]
    · rw [(applyBlogSaveHooks_lifecycle_frame _ _ _ _ _).2, if_neg hcond, hfp]

theorem c5_edit_demotion_witness :
    (∃ b' db', updateBlog wLikeDB 5 1 { title := some "A better title" } 7
       = .ok (b', db') ∧ b'.status = .pending ∧ b'.publishedAt = none) ∧
    (∃ b' db', updateBlog wLikeDB 5 1 { tags := some ["tech"] } 7
       = .ok (b', db') ∧ b'.status = .published ∧ b'.publishedAt = some 42) :=
  ⟨(c5_edit_demotion wLikeDB 5 1 wBlog { title := some "A better title" } 7
      rfl rfl rfl).1 (Or.inl rfl),
   (c5_edit_demotion wLikeDB 5 1 wBlog { tags := some ["tech"] } 7
      rfl rfl rfl).2 rfl rfl⟩

/-! ### C6: createComment -/

/-- `saveBlog` with no hook-relevant modification. -/
theorem saveBlog_noMod (db : DB) (b : Blog) (now : Nat) :
    saveBlog db b false false false now
      = (b, modifyBlogById db b.id (fun _ => b)) := by
  simp [saveBlog, applyBlogSaveHooks_noMod]

/-- C6: `createComment` against a `pending` post fails with
`PostNotPublished` (returning before any write); against a `published`
post, when any named parent exists, it succeeds, stores the comment,
appends its id to the parent's `replies`, and adds exactly 1 to the post's
`commentsCount`. -/
theorem c6_createComment (db : DB) (u : UserId) (blogId : BlogId)
    (content : String) (parent : Option CommentId) (newId : CommentId) (b : Blog)
    (hfind : findBlog db blogId = some b) :
    (b.status = .pending →
       createComment db u blogId content parent newId = .error .blogNotPublished) ∧
    (b.status = .published →
     (∀ pid, parent = some pid → (findComment db pid).isSome = true) →
       ∃ c db', createComment db u blogId content parent newId = .ok (c, db') ∧
         c.id = newId ∧ c.blog = blogId ∧ c.user = u ∧ c.content = content ∧
         c.parentComment = parent ∧
         (∃ c' ∈ db'.comments, c'.id = newId ∧ c'.blog = blogId ∧ c'.user = u ∧
            c'.content = content ∧ c'.parentComment = parent) ∧
         (findBlog db' blogId).map Blog.commentsCount
           = some (b.commentsCount + 1) ∧
         (∀ pid p, parent = some pid → findComment db pid = some p →
            (findComment db' pid).map Comment.replies
              = some (p.replies ++ [newId]))) := by
  have hid : b.id = blogId := findBlog_id_eq hfind
  subst hid
  have key : ∀ db0 : DB, findBlog db0 b.id = some b →
      Option.map Blog.commentsCount
        (findBlog (modifyBlogById db0 b.id
          (fun _ => { b with commentsCount := b.commentsCount + 1 })) b.id)
        = some (b.commentsCount + 1) := by
    intro db0 h0
    rw [findBlog_modifyBlogById db0 b.id
      (fun _ => { b with commentsCount := b.commentsCount + 1 })
      (fun _ _ => rfl), h0]
    rfl
  constructor
  · intro hst
    have hne : b.status ≠ .published := by simp [hst]
    simp only [createComment, hfind, if_pos hne]
  · intro hst hpar
    have hne : ¬ b.status ≠ .published := by simp [hst]
    cases hp : parent with
    | none =>
      simp only [createComment, hfind, if_neg hne, insertComment,
        applyCommentSaveHooks_likesOnly, saveBlog_noMod, List.length_nil]
      refine ⟨_, _, rfl, rfl, rfl, rfl, rfl, rfl, ?_, ?_, ?_⟩
      · exact ⟨{ id := newId
                 blog := b.id
                 user := u
                 content := content
                 parentComment := none
                 replies := []
                 likes := []
                 likesCount := 0
                 isEdited := false
                 isDeleted := false },
          List.mem_append_right db.comments (by simp), rfl, rfl, rfl, rfl, rfl⟩
      · exact key _ hfind
      · intro pid p hps
        exact absurd hps (by simp)
    | some pid =>
      have hsome := hpar pid hp
      cases hpc : findComment db pid with
      | none => rw [hpc] at hsome; simp at hsome
      | some p0 =>
        simp only [createComment, hfind, if_neg hne, hpc, insertComment,
          applyCommentSaveHooks_likesOnly, saveBlog_noMod, List.length_nil]
        have happ : findComment
            { db with comments := db.comments ++
                [{ id := newId
                   blog := b.id
                   user := u
                   content := content
                   parentComment := some pid
                   replies := []
                   likes := []
                   likesCount := 0
                   isEdited := false
                   isDeleted := false }] } pid = some p0 := by
          show List.find? _ (db.comments ++ _) = some p0
          rw [List.find?_append]
          rw [show List.find? (fun c => c.id == pid) db.comments = some p0
            from hpc]
          rfl
        have key2 : ∀ db0 : DB, findComment db0 pid = some p0 →
            Option.map Comment.replies
              (findComment (modifyCommentById db0 pid
                (fun q => { q with replies := q.replies ++ [newId] })) pid)
              = some (p0.replies ++ [newId]) := by
          intro db0 h0
          rw [findComment_modifyCommentById db0 pid
            (fun q => { q with replies := q.replies ++ [newId] })
            (fun _ hc => hc), h0]
          rfl
        refine ⟨_, _, rfl, rfl, rfl, rfl, rfl, rfl, ?_, ?_, ?_⟩
        · refine ⟨(fun cc : Comment => if cc.id == pid then
              { cc with replies := cc.replies ++ [newId] } else cc)
              { id := newId
                blog := b.id
                user := u
                content := content
                parentComment := some pid
                replies := []
                likes := []
                likesCount := 0
                isEdited := false
                isDeleted := false },
            List.mem_map_of_mem _ (List.mem_append_right db.comments (by simp)),
            ?_⟩
          dsimp only
          split
          · exact ⟨rfl, rfl, rfl, rfl, rfl⟩
          · exact ⟨rfl, rfl, rfl, rfl, rfl⟩
        · exact key _ hfind
        · intro pid' p hps hp'
          have hpid : pid = pid' := by injection hps
          subst hpid
          rw [hp'] at hpc
          have hp0 : p0 = p := by injection hpc with h; exact h.symm
          subst hp0
          exact key2 _ happ

theorem c6_createComment_witness :
    (createComment wPendDB 6 1 "first!" none 21 = .error .blogNotPublished) ∧
    (∃ c db', createComment wLikeDB 6 1 "reply text" (some 11) 21
        = .ok (c, db') ∧
      c.id = 21 ∧ c.blog = 1 ∧ c.user = 6 ∧ c.content = "reply text" ∧
      c.parentComment = some 11 ∧
      (∃ c' ∈ db'.comments, c'.id = 21 ∧ c'.blog = 1 ∧ c'.user = 6 ∧
         c'.content = "reply text" ∧ c'.parentComment = some 11) ∧
      (findBlog db' 1).map Blog.commentsCount = some 1 ∧
      (∀ pid p, (some 11 : Option CommentId) = some pid →
         findComment wLikeDB pid = some p →
         (findComment db' pid).map Comment.replies = some (p.replies ++ [21]))) :=
  ⟨(c6_createComment wPendDB 6 1 "first!" none 21
      { wBlog with status := .pending, publishedAt := none } rfl).1 rfl,
   (c6_createComment wLikeDB 6 1 "reply text" (some 11) 21 wBlog rfl).2 rfl
     (fun pid hps => by injection hps with h; subst h; rfl)⟩

/-! ### C7: soft delete of a comment -/

/-- All comment ids appearing in a `getComments` response. -/
def threadIds (ts : List CommentThread) : List CommentId :=
  ts.flatMap (fun t => t.comment.id :: t.replies.map Comment.id)

/-- If every stored comment carrying an id is deleted, that id appears
nowhere in the `getComments` response: not as a top-level comment and not
as a populated reply. -/
theorem getComments_excludes_deleted (db : DB) (bid : BlogId) (cid : CommentId)
    (hall : ∀ e ∈ db.comments, e.id = cid → e.isDeleted = true)
    (ts : List CommentThread) (hts : getComments db bid = .ok ts) :
    cid ∉ threadIds ts := by
  intro hmem
  unfold getComments at hts
  cases hfb : findBlog db bid with
  | none => rw [hfb] at hts; exact absurd hts (by simp)
  | some bb =>
    rw [hfb] at hts
    injection hts with hts
    subst hts
    unfold threadIds at hmem
    rw [List.mem_flatMap] at hmem
    obtain ⟨t, htmem, hidt⟩ := hmem
    rw [List.mem_map] at htmem
    obtain ⟨a, hamem, rfl⟩ := htmem
    rw [List.mem_filter] at hamem
    obtain ⟨hadb, hapred⟩ := hamem
    rw [List.mem_cons] at hidt
    rcases hidt with h | h
    · have hdel := hall a hadb h.symm
      simp [hdel] at hapred
    · rw [List.mem_map] at h
      obtain ⟨r, hrmem, hrid⟩ := h
      rw [List.mem_filter] at hrmem
      obtain ⟨hrfm, hrpred⟩ := hrmem
      rw [List.mem_filterMap] at hrfm
      obtain ⟨rid, _, hrfind⟩ := hrfm
      have hrdb : r ∈ db.comments := List.mem_of_find?_eq_some hrfind
      have hdel := hall r hrdb hrid
      simp [hdel] at hrpred

/-- C7: `softDeleteComment` by the author of an existing, non-deleted
comment succeeds, tombstones it (`isDeleted = true`, content replaced with
the placeholder), decrements the owning post's `commentsCount` by 1,
leaves every other comment's `replies` list — in particular the parent's —
untouched, and the comment no longer appears anywhere in the
`listComments` output. -/
theorem c7_softDeleteComment (db : DB) (u : UserId) (cid : CommentId)
    (c : Comment) (b : Blog)
    (hc : findComment db cid = some c) (hdel : c.isDeleted = false)
    (hauth : c.user = u) (hb : findBlog db c.blog = some b) :
    ∃ db', deleteComment db u cid = .ok db' ∧
      ((findComment db' cid).map (fun e => (e.isDeleted, e.content))
         = some (true, "[deleted]")) ∧
      ((findBlog db' c.blog).map Blog.commentsCount
         = some (b.commentsCount - 1)) ∧
      (∀ pid p, c.parentComment = some pid → pid ≠ cid →
         findComment db pid = some p →
         ∃ p', findComment db' pid = some p' ∧ p'.replies = p.replies) ∧
      (∀ ts, getComments db' c.blog = .ok ts → cid ∉ threadIds ts) := by
  have hcid : c.id = cid := findComment_id_eq hc
  subst hcid
  have hauth' : ¬ c.user ≠ u := by simp [hauth]
  simp only [deleteComment, hc, if_neg hauth', saveComment,
    applyCommentSaveHooks_noMod]
  have hall0 : ∀ e ∈ (modifyCommentById db c.id
      (fun _ => { c with isDeleted := true, content := "[deleted]" })).comments,
      e.id = c.id → e.isDeleted = true := by
    intro e he hid
    simp only [modifyCommentById, List.mem_map] at he
    obtain ⟨a, ha, rfl⟩ := he
    by_cases hac : (a.id == c.id) = true
    · simp only [if_pos hac]
    · rw [if_neg hac] at hid ⊢
      exact absurd (by simp [hid]) hac
  refine ⟨_, rfl, ?_, ?_, ?_, ?_⟩
  · have k1 : ∀ db0 : DB, findComment db0 c.id = some c →
        Option.map (fun e => (e.isDeleted, e.content))
          (findComment (modifyCommentById db0 c.id
            (fun _ => { c with isDeleted := true, content := "[deleted]" })) c.id)
          = some (true, "[deleted]") := by
      intro db0 h0
      rw [findComment_modifyCommentById db0 c.id
        (fun _ => { c with isDeleted := true, content := "[deleted]" })
        (fun _ _ => rfl), h0]
      rfl
    exact k1 _ hc
  · have k2 : ∀ db0 : DB, findBlog db0 c.blog = some b →
        Option.map Blog.commentsCount
          (findBlog (modifyBlogById db0 c.blog
            (fun bb => { bb with commentsCount := bb.commentsCount - 1 })) c.blog)
          = some (b.commentsCount - 1) := by
      intro db0 h0
      rw [findBlog_modifyBlogById db0 c.blog
        (fun bb => { bb with commentsCount := bb.commentsCount - 1 })
        (fun _ h => h), h0]
      rfl
    exact k2 _ hb
  · intro pid p hpp hne hp'
    have hfr := findComment_modifyCommentById_ne db pid c.id
      (fun _ => { c with isDeleted := true, content := "[deleted]" })
      hne (fun _ _ => rfl)
    exact ⟨p, hfr.trans hp', rfl⟩
  · intro ts hts
    refine getComments_excludes_deleted _ _ _ ?_ ts hts
    exact fun e he hid => hall0 e he hid

/-- A parent comment holding one reply, for the C7/C9 witnesses. -/
def wParent : Comment := { wComment with replies := [12] }

/-- The reply comment for the C7/C9 witnesses. -/
def wReply : Comment :=
  { id := 12
    blog := 1
    user := 6
    content := "a reply"
    parentComment := some 11
    replies := []
    likes := []
    likesCount := 0
    isEdited := false
    isDeleted := false }

def wThreadDB : DB := ⟨[{ wBlog with commentsCount := 2 }], [wParent, wReply]⟩

theorem c7_softDeleteComment_witness :
    ∃ db', deleteComment wThreadDB 6 12 = .ok db' ∧
      ((findComment db' 12).map (fun e => (e.isDeleted, e.content))
         = some (true, "[deleted]")) ∧
      ((findBlog db' 1).map Blog.commentsCount = some 1) ∧
      (∀ pid p, (some 11 : Option CommentId) = some pid → pid ≠ 12 →
         findComment wThreadDB pid = some p →
         ∃ p', findComment db' pid = some p' ∧ p'.replies = p.replies) ∧
      (∀ ts, getComments db' 1 = .ok ts → 12 ∉ threadIds ts) :=
  c7_softDeleteComment wThreadDB 6 12 wReply { wBlog with commentsCount := 2 }
    rfl rfl rfl rfl

/-! ### C8: author delete vs admin delete cascade -/

/-- C8: the author's `softDeletePost` flips the post's `isDeleted` flag and
leaves every comment document untouched, while the moderator's
`adminDeletePost` additionally marks exactly the comments referencing that
post as deleted, leaving every other comment unchanged. -/
theorem c8_delete_cascade_asymmetry (db : DB) (u : UserId) (id : BlogId)
    (b : Blog) (hb : findBlog db id = some b) (hauth : b.author = u) :
    (∃ db', deleteBlog db u id = .ok db' ∧
       (findBlog db' id).map Blog.isDeleted = some true ∧
       db'.comments = db.comments) ∧
    (∃ db', deleteBlogAdmin db id = .ok db' ∧
       (findBlog db' id).map Blog.isDeleted = some true ∧
       db'.comments = db.comments.map
         (fun c => if c.blog == id then { c with isDeleted := true } else c)) := by
  have hid : b.id = id := findBlog_id_eq hb
  subst hid
  have hauth' : ¬ b.author ≠ u := by simp [hauth]
  have k : ∀ db0 : DB, findBlog db0 b.id = some b →
      Option.map Blog.isDeleted (findBlog (modifyBlogById db0 b.id
        (fun _ => { b with isDeleted := true })) b.id) = some true := by
    intro db0 h0
    rw [findBlog_modifyBlogById db0 b.id (fun _ => { b with isDeleted := true })
      (fun _ _ => rfl), h0]
    rfl
  constructor
  · simp only [deleteBlog, hb, if_neg hauth', saveBlog_noMod]
    exact ⟨_, rfl, k _ hb, rfl⟩
  · simp only [deleteBlogAdmin, hb, saveBlog_noMod]
    exact ⟨_, rfl, k _ hb, rfl⟩

theorem c8_delete_cascade_asymmetry_witness :
    (∃ db', deleteBlog wThreadDB 5 1 = .ok db' ∧
       (findBlog db' 1).map Blog.isDeleted = some true ∧
       db'.comments = wThreadDB.comments) ∧
    (∃ db', deleteBlogAdmin wThreadDB 1 = .ok db' ∧
       (findBlog db' 1).map Blog.isDeleted = some true ∧
       db'.comments = wThreadDB.comments.map
         (fun c => if c.blog == 1 then { c with isDeleted := true } else c)) :=
  c8_delete_cascade_asymmetry wThreadDB 5 1 { wBlog with commentsCount := 2 }
    rfl rfl

/-! ### C9: repeated soft deletes keep decrementing -/

/-- C9: neither `softDeleteComment` nor the admin variant checks whether
the comment is already deleted: both succeed on an already-deleted comment
and decrement the owning post's `commentsCount` again, so repeated
deletions drive the counter below the true non-deleted comment count and
below zero. -/
theorem c9_delete_not_idempotent (db : DB) (u : UserId) (cid : CommentId)
    (c : Comment) (b : Blog)
    (hc : findComment db cid = some c) (hdel : c.isDeleted = true)
    (hauth : c.user = u) (hb : findBlog db c.blog = some b) :
    (∃ db', deleteComment db u cid = .ok db' ∧
       (findBlog db' c.blog).map Blog.commentsCount
         = some (b.commentsCount - 1)) ∧
    (∃ db', deleteCommentAdmin db cid = .ok db' ∧
       (findBlog db' c.blog).map Blog.commentsCount
         = some (b.commentsCount - 1)) := by
  have hcid : c.id = cid := findComment_id_eq hc
  subst hcid
  have hauth' : ¬ c.user ≠ u := by simp [hauth]
  have k : ∀ db0 : DB, findBlog db0 c.blog = some b →
      Option.map Blog.commentsCount
        (findBlog (modifyBlogById db0 c.blog
          (fun bb => { bb with commentsCount := bb.commentsCount - 1 })) c.blog)
        = some (b.commentsCount - 1) := by
    intro db0 h0
    rw [findBlog_modifyBlogById db0 c.blog
      (fun bb => { bb with commentsCount := bb.commentsCount - 1 })
      (fun _ h => h), h0]
    rfl
  constructor
  · simp only [deleteComment, hc, if_neg hauth', saveComment,
      applyCommentSaveHooks_noMod]
    exact ⟨_, rfl, k _ hb⟩
  · simp only [deleteCommentAdmin, hc, saveComment, applyCommentSaveHooks_noMod]
    exact ⟨_, rfl, k _ hb⟩

/-- The database after a comment was already soft-deleted once (the blog's
`commentsCount` is already back to 0). -/
def wDeletedReplyDB : DB :=
  ⟨[{ wBlog with commentsCount := 0 }],
   [{ wReply with isDeleted := true, content := "[deleted]" }]⟩

theorem c9_delete_not_idempotent_witness :
    (∃ db', deleteComment wDeletedReplyDB 6 12 = .ok db' ∧
       (findBlog db' 1).map Blog.commentsCount = some (-1)) ∧
    (∃ db', deleteCommentAdmin wDeletedReplyDB 12 = .ok db' ∧
       (findBlog db' 1).map Blog.commentsCount = some (-1)) :=
  c9_delete_not_idempotent wDeletedReplyDB 6 12
    { wReply with isDeleted := true, content := "[deleted]" }
    { wBlog with commentsCount := 0 } rfl rfl rfl rfl

/-! ### C10: excerpt auto-derivation -/

/-- A non-empty stored excerpt is never overwritten by the save hooks. -/
theorem applyBlogSaveHooks_excerpt_kept (b : Blog) (t c l : Bool) (now : Nat)
    (he : b.excerpt ≠ "") :
    (applyBlogSaveHooks b t c l now).excerpt = b.excerpt := by
  have hfalse : (b.excerpt == "") = false := by simp [he]
  cases t <;> cases c <;> cases l <;> simp [applyBlogSaveHooks, hfalse]

/-- When the update body carries an excerpt, the field-assignment block
stores exactly it. -/
theorem applyBlogUpdateFields_excerpt (u : BlogUpdate) (b : Blog) (e : String)
    (hu : u.excerpt = some e) :
    (applyBlogUpdateFields u b).excerpt = e := by
  obtain ⟨t, c, ex, ci, cat, tg⟩ := u
  have hex : ex = some e := hu
  subst hex
  unfold applyBlogUpdateFields
  dsimp only
  cases ci <;> cases tg <;>
    by_cases h1 : truthy t = true <;> by_cases h2 : truthy c = true <;>
      by_cases h3 : truthy cat = true <;>
        simp [h1, h2, h3]

/-- The re-pending demotion never touches the excerpt. -/
theorem demote_excerpt (P : Prop) [inst : Decidable P] (x : Blog) :
    (if P then { x with status := Status.pending, publishedAt := none }
     else x).excerpt = x.excerpt := by
  split <;> rfl

/-- C10: a post created with a body longer than 150 characters and no
explicit excerpt gets `excerpt = body[0:150] ++ "..."`; and any later edit
that supplies a non-empty explicit excerpt stores exactly that excerpt,
whatever the new body is (the hook only fills an empty excerpt). -/
theorem c10_excerpt (db : DB) (userId : UserId) (title content : String)
    (coverImage : Option String) (category : String)
    (tags : Option (List String)) (newId : BlogId) (now : Nat) (e : String)
    (hlen : 150 < content.length) (he : e ≠ "") :
    ((createBlog db userId title content none coverImage category tags
        newId now).1.excerpt = content.take 150 ++ "...") ∧
    (∀ (db₂ : DB) (uid : UserId) (id : BlogId) (b : Blog) (u : BlogUpdate)
       (now₂ : Nat),
       findBlog db₂ id = some b → b.author = uid → u.excerpt = some e →
       ∃ b' db', updateBlog db₂ uid id u now₂ = .ok (b', db') ∧
         b'.excerpt = e) := by
  constructor
  · simp [createBlog, applyBlogSaveHooks]
  · intro db₂ uid id b u now₂ hfind hauthb hu
    have hauth' : ¬ b.author ≠ uid := by simp [hauthb]
    simp only [updateBlog, hfind, if_neg hauth', saveBlog]
    refine ⟨_, _, rfl, ?_⟩
    rw [applyBlogSaveHooks_excerpt_kept]
    · rw [demote_excerpt]
      exact applyBlogUpdateFields_excerpt u b e hu
    · rw [demote_excerpt, applyBlogUpdateFields_excerpt u b e hu]
      exact he

/-- A 160-character body for the C10 witness. -/
def wLongContent : String := String.mk (List.replicate 160 'a')

set_option maxRecDepth 4000 in
theorem c10_excerpt_witness :
    ((createBlog ⟨[], []⟩ 5 "A nice title" wLongContent none none "Other" none
        1 42).1.excerpt = wLongContent.take 150 ++ "...") ∧
    (∀ (db₂ : DB) (uid : UserId) (id : BlogId) (b : Blog) (u : BlogUpdate)
       (now₂ : Nat),
       findBlog db₂ id = some b → b.author = uid →
       u.excerpt = some "my own excerpt" →
       ∃ b' db', updateBlog db₂ uid id u now₂ = .ok (b', db') ∧
         b'.excerpt = "my own excerpt") :=
  c10_excerpt ⟨[], []⟩ 5 "A nice title" wLongContent none "Other" none 1 42
    "my own excerpt" (by decide) (by decide)

end Blogging
